import Mathlib

set_option maxRecDepth 100000

/-!
Verification development for the CoinDCX futures client
(`coindcx_futures.py`, `example_usage.py`).

The module embeds, as executable Lean definitions, the parts of the
client that the specification's testable properties talk about:

* the HMAC-SHA256 signing function `_generate_signature` (byte-exact,
  including a full executable SHA-256 over `Nat` bytes and the compact
  JSON serialization `json.dumps(body, separators=(',', ':'))`);
* the signed request builder `_make_request`;
* the websocket connection / subscription / handler-registration
  methods, embedded as pure state transformers over an explicit client
  state, with the socket-io transport modelled as a parameter;
* the reconnect loop of `example_usage.example_websocket` with its
  exponential backoff;
* an interleaving small-step model of the keepalive `_ping_task`
  running concurrently with `disconnect_websocket`.

All definitions are translated from the Python source; theorems below
settle the specification claims against them.
-/

namespace CoinDCX

/-! ## Bytes and 32-bit words

Bytes are `Nat` values below 256; 32-bit words are `Nat` values kept
below `2^32` by explicit reduction `w32`. -/

/-- Reduce a natural number to a 32-bit word. -/
def w32 (n : Nat) : Nat := n % 4294967296

/-- Right rotation of a 32-bit word by `n` bits. -/
def rotw (n x : Nat) : Nat := w32 ((x >>> n) ||| (x <<< (32 - n)))

/-- Bitwise complement of a 32-bit word. -/
def compl32 (x : Nat) : Nat := 4294967295 ^^^ x

/-! ## SHA-256 (FIPS 180-4), over lists of byte values -/

/-- SHA-256 round constants (decimal renderings of the FIPS 180-4
table: the fractional parts of the cube roots of the first 64 primes). -/
def shaK : List Nat :=
  [1116352408, 1899447441, 3049323471, 3921009573, 961987163,
   1508970993, 2453635748, 2870763221, 3624381080, 310598401,
   607225278, 1426881987, 1925078388, 2162078206, 2614888103,
   3248222580, 3835390401, 4022224774, 264347078, 604807628,
   770255983, 1249150122, 1555081692, 1996064986, 2554220882,
   2821834349, 2952996808, 3210313671, 3336571891, 3584528711,
   113926993, 338241895, 666307205, 773529912, 1294757372,
   1396182291, 1695183700, 1986661051, 2177026350, 2456956037,
   2730485921, 2820302411, 3259730800, 3345764771, 3516065817,
   3600352804, 4094571909, 275423344, 430227734, 506948616,
   659060556, 883997877, 958139571, 1322822218, 1537002063,
   1747873779, 1955562222, 2024104815, 2227730452, 2361852424,
   2428436474, 2756734187, 3204031479, 3329325298]

/-- SHA-256 initial hash value (decimal renderings of the FIPS 180-4
table: the fractional parts of the square roots of the first 8
primes). -/
def shaH0 : List Nat :=
  [1779033703, 3144134277, 1013904242, 2773480762,
   1359893119, 2600822924, 528734635, 1541459225]

/-- Choice function of the compression rounds. -/
def chFn (x y z : Nat) : Nat := (x &&& y) ^^^ (compl32 x &&& z)

/-- Majority function of the compression rounds. -/
def majFn (x y z : Nat) : Nat := (x &&& y) ^^^ (x &&& z) ^^^ (y &&& z)

/-- Word mixing function Sigma0 of the compression rounds. -/
def mixA (x : Nat) : Nat := rotw 2 x ^^^ rotw 13 x ^^^ rotw 22 x

/-- Word mixing function Sigma1 of the compression rounds. -/
def mixE (x : Nat) : Nat := rotw 6 x ^^^ rotw 11 x ^^^ rotw 25 x

/-- Word spreading function sigma0 of the message schedule. -/
def spreadLo (x : Nat) : Nat := rotw 7 x ^^^ rotw 18 x ^^^ (x >>> 3)

/-- Word spreading function sigma1 of the message schedule. -/
def spreadHi (x : Nat) : Nat := rotw 17 x ^^^ rotw 19 x ^^^ (x >>> 10)

/-- Pad a byte message per SHA-256: append `0x80`, zeros, and the
64-bit big-endian bit length, reaching a multiple of 64 bytes. -/
def padMessage (msg : List Nat) : List Nat :=
  let bitLen := msg.length * 8
  let zeros := (119 - msg.length % 64) % 64
  msg ++ [0x80] ++ List.replicate zeros 0 ++
    (List.range 8).map (fun i => (bitLen >>> ((7 - i) * 8)) % 256)

/-- Split a byte list into chunks of 64, with explicit fuel for
structural termination (fuel is always sufficient at `l.length`). -/
def chunksAux : Nat → List Nat → List (List Nat)
  | 0, _ => []
  | _, [] => []
  | fuel + 1, l => l.take 64 :: chunksAux fuel (l.drop 64)

/-- Split a byte list into 64-byte blocks. -/
def chunks64 (l : List Nat) : List (List Nat) := chunksAux l.length l

/-- Parse a 64-byte block into 16 big-endian 32-bit words. -/
def blockWords (b : List Nat) : List Nat :=
  (List.range 16).map (fun i =>
    b.getD (4 * i) 0 * 16777216 + b.getD (4 * i + 1) 0 * 65536 +
    b.getD (4 * i + 2) 0 * 256 + b.getD (4 * i + 3) 0)

/-- Extend the message schedule; the accumulator holds the schedule so
far in reverse (most recent word first). -/
def scheduleAux : Nat → List Nat → List Nat
  | 0, ws => ws
  | fuel + 1, ws =>
    scheduleAux fuel
      (w32 (spreadHi (ws.getD 1 0) + ws.getD 6 0 + spreadLo (ws.getD 14 0) + ws.getD 15 0) :: ws)

/-- Full 64-word message schedule of a block. -/
def schedule (b : List Nat) : List Nat := (scheduleAux 48 (blockWords b).reverse).reverse

/-- One SHA-256 compression round; the state is the eight working
variables `[a, b, c, d, e, f, g, h]`. -/
def shaRound (st : List Nat) (k w : Nat) : List Nat :=
  match st with
  | [a, b, c, d, e, f, g, h] =>
    let t1 := w32 (h + mixE e + chFn e f g + k + w)
    let t2 := w32 (mixA a + majFn a b c)
    [w32 (t1 + t2), a, b, c, w32 (d + t1), e, f, g]
  | st => st

/-- Compress one 64-byte block into the running hash value. -/
def compress (h : List Nat) (b : List Nat) : List Nat :=
  let st := (shaK.zip (schedule b)).foldl (fun st kw => shaRound st kw.1 kw.2) h
  (h.zip st).map (fun p => w32 (p.1 + p.2))

/-- SHA-256 digest (32 bytes) of a byte message. -/
def sha256 (msg : List Nat) : List Nat :=
  ((chunks64 (padMessage msg)).foldl compress shaH0).foldr
    (fun w acc => (w >>> 24) % 256 :: (w >>> 16) % 256 :: (w >>> 8) % 256 :: w % 256 :: acc) []

/-! ## HMAC-SHA256 (RFC 2104) -/

/-- HMAC-SHA256 digest (32 bytes) of a message under a key, both given
as byte lists. -/
def hmacSha256 (key msg : List Nat) : List Nat :=
  let k0 := if 64 < key.length then sha256 key else key
  let kp := k0 ++ List.replicate (64 - k0.length) 0
  sha256 ((kp.map (fun b => b ^^^ 0x5c)) ++ sha256 ((kp.map (fun b => b ^^^ 0x36)) ++ msg))

/-- Lowercase hexadecimal digit for a value below 16. -/
def hexDigit (n : Nat) : Char := if n < 10 then Char.ofNat (48 + n) else Char.ofNat (87 + n)

/-- Lowercase hexadecimal rendering of a byte list. -/
def hexOfBytes (bs : List Nat) : String :=
  String.mk (bs.foldr (fun b acc => hexDigit (b / 16 % 16) :: hexDigit (b % 16) :: acc) [])

/-- UTF-8 bytes of a string; all strings signed by this client are
ASCII, on which UTF-8 is the identity on code points. -/
def strBytes (s : String) : List Nat := s.data.map Char.toNat

/-! ## Compact JSON serialization

Embeds `json.dumps(body, separators=(',', ':'))` for the flat
string/integer objects this client signs.  Python dicts preserve
insertion order, so an object is an association list serialized in list
order.  All keys and string values signed by this client are plain
ASCII without characters that `json.dumps` would escape. -/

/-- JSON values appearing in signed bodies. -/
inductive JVal
  | int (n : Int)
  | str (s : String)
deriving DecidableEq

/-- Serialization of a single JSON value. -/
def dumpVal : JVal → String
  | .int n => toString n
  | .str s => "\"" ++ s ++ "\""

/-- Compact serialization of a JSON object, mirroring
`json.dumps(body, separators=(',', ':'))`. -/
def dumps (obj : List (String × JVal)) : String :=
  "\x7b" ++ String.intercalate "," (obj.map (fun p => "\"" ++ p.1 ++ "\":" ++ dumpVal p.2)) ++
    "\x7d"

/-- Python dict assignment `obj[k] = v`: overwrite in place when the key
is present, append otherwise. -/
def dictAssign {α : Type} (obj : List (String × α)) (k : String) (v : α) : List (String × α) :=
  if obj.any (fun p => p.1 = k) then obj.map (fun p => if p.1 = k then (k, v) else p)
  else obj ++ [(k, v)]

/-- Embedding of `CoinDCXFutures._generate_signature`: the hex HMAC-SHA256,
keyed by the secret, of the compact JSON serialization of the body. -/
def _generate_signature (secret_key : String) (body : List (String × JVal)) : String :=
  hexOfBytes (hmacSha256 (strBytes secret_key) (strBytes (dumps body)))

/-- Key lookup in an association list (first matching key wins, as in a
Python dict, whose keys are unique). -/
def lookupKey {α : Type} : List (String × α) → String → Option α
  | [], _ => none
  | p :: ps, k => if p.1 = k then some p.2 else lookupKey ps k

/-- The payload of the signing scenario of the spec, with `a` as a
parameter. -/
def payloadA (a : Int) : List (String × JVal) :=
  [("a", .int a), ("timestamp", .int 1700000000000)]

/-! ## The signed request dispatcher `_make_request`

The HTTP transport (`requests.get` / `requests.post`) is a parameter:
a function from the built request to an outcome, either a response with
a status code or a transport-level failure (timeout, connection error —
both are `requests.exceptions.RequestException`s).  `_make_request`
returns the list of requests handed to the transport together with the
call's result, so that retry behaviour is observable. -/

/-- A request as handed to the `requests` library: URL, headers, and
the serialized body (`None` for GET, which sends no body). -/
structure SentRequest where
  url : String
  headers : List (String × String)
  data : Option String
deriving DecidableEq

/-- Outcome of one transport send: either a response bearing a status
code and decoded JSON, or a transport-level failure. -/
inductive HttpOutcome
  | response (status : Nat) (json : List (String × JVal))
  | transportFailure (msg : String)
deriving DecidableEq

/-- Result of a `_make_request` call: the decoded JSON on success, a
raised `RequestException`/`HTTPError`, or a raised `ValueError` for an
unsupported method. -/
inductive RequestResult
  | ok (json : List (String × JVal))
  | error (msg : String)
  | valueError (msg : String)
deriving DecidableEq

/-- Observable effect of a `_make_request` call: the requests handed to
the transport, in order, and the call's result. -/
structure RequestTrace where
  sent : List SentRequest
  result : RequestResult
deriving DecidableEq

/-- Embedding of `CoinDCXFutures._get_headers`. -/
def _get_headers (api_key signature : String) : List (String × String) :=
  [("Content-Type", "application/json"),
   ("X-AUTH-APIKEY", api_key),
   ("X-AUTH-SIGNATURE", signature)]

/-- The request `_make_request` builds: the timestamp is assigned into
the body, the signature is computed over that body, and for POST the
same body is serialized again as the transmitted data. -/
def mkSignedRequest (api_key secret_key base_url method endpoint : String)
    (body : List (String × JVal)) (nowMs : Int) : SentRequest :=
  let body1 := dictAssign body "timestamp" (JVal.int nowMs)
  let signature := _generate_signature secret_key body1
  { url := base_url ++ endpoint,
    headers := _get_headers api_key signature,
    data := if method = "POST" then some (dumps body1) else none }

/-- Embedding of `CoinDCXFutures._make_request`: add the timestamp to
the body, sign, send once; `raise_for_status` raises on a 4xx/5xx
status; any `RequestException` is logged and re-raised; an unsupported
method raises `ValueError` without touching the transport. -/
def _make_request (api_key secret_key base_url method endpoint : String)
    (body : List (String × JVal)) (nowMs : Int)
    (send : SentRequest → HttpOutcome) : RequestTrace :=
  if method = "GET" ∨ method = "POST" then
    let req := mkSignedRequest api_key secret_key base_url method endpoint body nowMs
    match send req with
    | .response status json =>
      { sent := [req],
        result := if 400 ≤ status ∧ status < 600 then
            .error ("HTTP " ++ toString status) else .ok json }
    | .transportFailure msg => { sent := [req], result := .error msg }
  else
    { sent := [], result := .valueError ("Unsupported HTTP method: " ++ method) }

/-! ## WebSocket client state

The socket-io `AsyncClient` is embedded as an optional record holding
its connected flag and its handler registry.  python-socketio keeps at
most one handler per event name per namespace (`sio.on(event, handler)`
performs the dict assignment `self.handlers[namespace][event] =
handler`), so the registry is an association list mutated with the same
`dictAssign` combinator as any Python dict; handlers themselves are
opaque and represented by numeric identifiers.  The only behaviour of
`sio.emit` relevant here is whether it raises (it raises, sending no
frame, when the socket is not connected), so methods that emit take the
emit outcome as a parameter and return the (unchanged, on failure)
client state explicitly. -/

/-- State of the socket-io `AsyncClient`. -/
structure SioState where
  connected : Bool
  handlers : List (String × Nat)
deriving DecidableEq

/-- State of a `CoinDCXFutures` instance, restricted to the fields the
websocket methods read and write. -/
structure Client where
  api_key : String
  secret_key : String
  sio : Option SioState
  ws_connected : Bool
  subscriptions : Finset String
deriving DecidableEq

/-- An outbound socket-io frame. -/
inductive Frame
  | join (channelName : String) (authSignature apiKey : Option String)
  | leave (channelName : String)
  | ping
deriving DecidableEq

/-- Observable effect of one websocket method call: the client state
after the call, the frames emitted, and the exception raised, if any
(a raised exception leaves the Python object exactly as it was at the
raise point). -/
structure MethodResult where
  client : Client
  frames : List Frame
  err : Option String
deriving DecidableEq

/-- Shared body of every market-data subscribe method: emit a `join`
frame for the channel, then `self.subscriptions.add(channel)`; when the
emit raises, the add is never reached. -/
def subscribeChannel (c : Client) (channel : String) (emitOk : Bool) : MethodResult :=
  if emitOk then
    ⟨{ c with subscriptions := insert channel c.subscriptions },
     [Frame.join channel none none], none⟩
  else ⟨c, [], some "emit failed"⟩

/-- Embedding of `subscribe_orderbook`. -/
def subscribe_orderbook (c : Client) (pair : String) (depth : Nat) (emitOk : Bool) :
    MethodResult :=
  subscribeChannel c (pair ++ "@orderbook@" ++ toString depth ++ "-futures") emitOk

/-- Embedding of `subscribe_trades`. -/
def subscribe_trades (c : Client) (pair : String) (emitOk : Bool) : MethodResult :=
  subscribeChannel c (pair ++ "@trades-futures") emitOk

/-- Embedding of `subscribe_prices`. -/
def subscribe_prices (c : Client) (pair : String) (emitOk : Bool) : MethodResult :=
  subscribeChannel c (pair ++ "@prices-futures") emitOk

/-- Embedding of `subscribe_candlesticks`. -/
def subscribe_candlesticks (c : Client) (pair interval : String) (emitOk : Bool) :
    MethodResult :=
  subscribeChannel c (pair ++ "_" ++ interval ++ "-futures") emitOk

/-- Embedding of `_subscribe_authenticated_channel`: sign
`{"channel": "coindcx"}`, emit the authenticated `join`, then add
"coindcx" to the subscription set. -/
def _subscribe_authenticated_channel (c : Client) (emitOk : Bool) : MethodResult :=
  let signature := _generate_signature c.secret_key [("channel", JVal.str "coindcx")]
  if emitOk then
    ⟨{ c with subscriptions := insert "coindcx" c.subscriptions },
     [Frame.join "coindcx" (some signature) (some c.api_key)], none⟩
  else ⟨c, [], some "emit failed"⟩

/-- Embedding of `unsubscribe`: emit a `leave` frame, then
`self.subscriptions.discard(channel)`. -/
def unsubscribe (c : Client) (channel : String) (emitOk : Bool) : MethodResult :=
  if emitOk then
    ⟨{ c with subscriptions := c.subscriptions.erase channel }, [Frame.leave channel], none⟩
  else ⟨c, [], some "emit failed"⟩

/-- Embedding of `connect_websocket`: create the `AsyncClient` (with an
empty handler registry) when absent; when not already connected,
attempt the transport connect (outcome is the `connectOk` parameter);
on success set `ws_connected`, start the ping task, and subscribe the
authenticated channel; on failure log and re-raise. -/
def connect_websocket (c : Client) (connectOk : Bool) : MethodResult :=
  let c1 := match c.sio with
    | none => { c with sio := some ⟨false, []⟩ }
    | some _ => c
  if c1.ws_connected then ⟨c1, [], none⟩
  else if connectOk then
    let c2 := { c1 with sio := c1.sio.map (fun st => { st with connected := true }),
                        ws_connected := true }
    _subscribe_authenticated_channel c2 true
  else ⟨c1, [], some "WebSocket connection failed"⟩

/-- Embedding of `disconnect_websocket`: when the client exists and
`ws_connected` holds, disconnect the transport and clear the flag;
otherwise do nothing. -/
def disconnect_websocket (c : Client) : MethodResult :=
  match c.sio with
  | some st =>
    if c.ws_connected then
      ⟨{ c with sio := some { st with connected := false }, ws_connected := false }, [], none⟩
    else ⟨c, [], none⟩
  | none => ⟨c, [], none⟩

/-- Shared body of every handler-registration method: when `self.sio`
is present, perform the socket-io registration (a dict assignment on
the handler registry); when it is `None`, the `if self.sio:` guard
falls through and nothing at all happens. -/
def registerHandler (c : Client) (event : String) (cb : Nat) : Client :=
  match c.sio with
  | none => c
  | some st => { c with sio := some { st with handlers := dictAssign st.handlers event cb } }

/-- Embedding of `on_position_update`. -/
def on_position_update (c : Client) (cb : Nat) : Client :=
  registerHandler c "df-position-update" cb

/-- Embedding of `on_order_update`. -/
def on_order_update (c : Client) (cb : Nat) : Client :=
  registerHandler c "df-order-update" cb

/-- Embedding of `on_balance_update`. -/
def on_balance_update (c : Client) (cb : Nat) : Client :=
  registerHandler c "balance-update" cb

/-- Embedding of `on_price_change`. -/
def on_price_change (c : Client) (cb : Nat) : Client :=
  registerHandler c "price-change" cb

/-- Embedding of `on_new_trade`. -/
def on_new_trade (c : Client) (cb : Nat) : Client :=
  registerHandler c "new-trade" cb

/-- Embedding of `on_depth_update`. -/
def on_depth_update (c : Client) (cb : Nat) : Client :=
  registerHandler c "depth-update" cb

/-- Embedding of `on_candlestick`. -/
def on_candlestick (c : Client) (cb : Nat) : Client :=
  registerHandler c "candlestick" cb

/-- Dispatch of one inbound named event by python-socketio
(`_trigger_event`): the handler registered for the name, if any, is
invoked exactly once; unregistered names are dropped.  The returned
list is the sequence of handlers invoked. -/
def triggerEvent (st : SioState) (event : String) : List Nat :=
  match lookupKey st.handlers event with
  | some h => [h]
  | none => []

/-- Handlers invoked when the client's socket dispatches an event. -/
def clientTrigger (c : Client) (event : String) : List Nat :=
  match c.sio with
  | some st => triggerEvent st event
  | none => []

/-- Handler registry of the client's socket, empty when no socket. -/
def handlersOf (c : Client) : List (String × Nat) :=
  match c.sio with
  | some st => st.handlers
  | none => []

/-- Channels named by the `join` frames of a frame list. -/
def joinedChannels (frames : List Frame) : List String :=
  frames.filterMap (fun f => match f with
    | .join ch _ _ => some ch
    | _ => none)

/-- A freshly constructed client: no socket, not connected, empty
subscription set. -/
def sampleClient : Client :=
  { api_key := "k", secret_key := "s", sio := none, ws_connected := false,
    subscriptions := ∅ }

/-- A connected client with an empty handler registry. -/
def connectedClient : Client :=
  { api_key := "k", secret_key := "s", sio := some ⟨true, []⟩, ws_connected := true,
    subscriptions := {"coindcx"} }

/-- Client state right after a connection drop: `ws_connected` cleared,
the subscription set still holding the channels active before the drop
(the authenticated channel and one market-data channel). -/
def preDropClient : Client :=
  { api_key := "k", secret_key := "s", sio := some ⟨false, []⟩, ws_connected := false,
    subscriptions := {"coindcx", "B-BTC_USDT@trades-futures"} }

/-! ## The reconnect loop of `example_usage.example_websocket`

One iteration of the `while True:` loop either connects successfully —
which executes `reconnect_delay = 5` and sleeps nothing — or hits the
`except` branch, which sleeps `reconnect_delay` seconds and then
executes `reconnect_delay = min(reconnect_delay * 2, 60)`. -/

/-- Outcome of one connection attempt of the reconnect loop. -/
inductive ConnOutcome
  | success
  | failure
deriving DecidableEq

/-- One loop iteration: the new `reconnect_delay` and the list of
backoff sleeps performed (empty on success, the old delay on failure). -/
def loopStep (d : Nat) : ConnOutcome → Nat × List Nat
  | .success => (5, [])
  | .failure => (min (d * 2) 60, [d])

/-- Backoff sleeps performed by the reconnect loop on a sequence of
connection outcomes, starting from delay `d`. -/
def runDelays (d : Nat) : List ConnOutcome → List Nat
  | [] => []
  | o :: os =>
    let r := loopStep d o
    r.2 ++ runDelays r.1 os

/-! ## Interleaving model of the keepalive task

The `_ping_task` coroutine loops: test `self.ws_connected` (exit when
false), `await asyncio.sleep(25)`, then `await self.sio.emit('ping',
...)` inside try/except.  The emit sends a ping frame only when the
underlying socket is connected; on a disconnected socket it raises,
which the except swallows.  `disconnect_websocket` may run between any
two of these steps: when `ws_connected` holds it disconnects the socket
and clears the flag.  A remote connection loss (`lose`) disconnects the
socket without touching the client's flag.  The scheduler is an
arbitrary label list; labels whose program point is not current are
no-ops, so the list ranges over every interleaving. -/

/-- Program counter of the `_ping_task` coroutine. -/
inductive PingPC
  | check
  | sleeping
  | emitting
  | stopped
deriving DecidableEq

/-- Joint state of the keepalive task, the client flag, the socket, the
clock (seconds since connect), and the ping frames sent (their times). -/
structure PingState where
  ws_connected : Bool
  sio_connected : Bool
  pc : PingPC
  clock : Nat
  pings : List Nat
deriving DecidableEq

/-- Scheduler labels: the three steps of the ping loop, a remote
connection loss, and a `disconnect_websocket` call. -/
inductive PingLab
  | check
  | sleep
  | emit
  | lose
  | disconnect
deriving DecidableEq

/-- Small-step semantics of the keepalive system. -/
def pingStep (s : PingState) : PingLab → PingState
  | .check =>
    if s.pc = .check then
      if s.ws_connected then { s with pc := .sleeping } else { s with pc := .stopped }
    else s
  | .sleep =>
    if s.pc = .sleeping then { s with clock := s.clock + 25, pc := .emitting } else s
  | .emit =>
    if s.pc = .emitting then
      if s.sio_connected then { s with pings := s.pings ++ [s.clock], pc := .check }
      else { s with pc := .check }
    else s
  | .lose => { s with sio_connected := false }
  | .disconnect =>
    if s.ws_connected then { s with sio_connected := false, ws_connected := false } else s

/-- Run the keepalive system under a scheduler. -/
def pingRun (s : PingState) (ls : List PingLab) : PingState := ls.foldl pingStep s

/-- State right after a successful connect at time `t0`: flag set,
socket up, ping task at its loop head, no pings sent. -/
def initialPing (t0 : Nat) : PingState := ⟨true, true, .check, t0, []⟩

/-- The times of the first `m` keepalive pings after a connect at `t0`:
one every 25 seconds. -/
def pingTimes (t0 m : Nat) : List Nat := (List.range m).map (fun i => t0 + 25 * (i + 1))

/-- Inductive invariant of the keepalive system: the client flag can
only be cleared together with the socket, the pings sent so far are
exactly one every 25 seconds, and while the socket is up the clock
tracks the ping schedule. -/
def pingInv (t0 : Nat) (s : PingState) : Prop :=
  (s.ws_connected = false → s.sio_connected = false) ∧
  ∃ m, s.pings = pingTimes t0 m ∧
    (s.sio_connected = true →
      s.clock = t0 + 25 * m + (if s.pc = PingPC.emitting then 25 else 0))

end CoinDCX

namespace CoinDCX

/-- SHA-256 test vector: the empty message. -/
theorem sha256_empty_vector :
    hexOfBytes (sha256 []) =
      "e3b0c44298fc1c149afbf4c8996fb92427ae41e4649b934ca495991b7852b855" := by
  decide

/-- SHA-256 test vector: the message "abc". -/
theorem sha256_abc_vector :
    hexOfBytes (sha256 (strBytes "abc")) =
      "ba7816bf8f01cfea414140de5dae2223b00361a396177a9cb410ff61f20015ad" := by
  decide

/-- Compact serialization of the scenario payload matches
`json.dumps({"a":1,"timestamp":1700000000000}, separators=(',',':'))`. -/
theorem dumps_scenario_payload :
    dumps (payloadA 1) = "\x7b\"a\":1,\"timestamp\":1700000000000\x7d" := by
  decide

/-- HMAC-SHA256 vector: the scenario payload with `a = 1` under secret
"s" (digest computed with Python's `hmac`/`hashlib` reference). -/
theorem signature_scenario_vector_a1 :
    _generate_signature "s" (payloadA 1) =
      "8e6f153603f78bf4ecd409084834ba8abc011a639f906b572ce63beac41a6306" := by
  decide

/-- HMAC-SHA256 vector: the scenario payload with `a = 2` under secret
"s" (digest computed with Python's `hmac`/`hashlib` reference). -/
theorem signature_scenario_vector_a2 :
    _generate_signature "s" (payloadA 2) =
      "7c730b7d209f8c89c5a44a2fde0e28fa02b043e9e8543903311d5900ad90579c" := by
  decide

/-- C1: `_generate_signature` is deterministic — identical secret and
payload give the identical hex digest, which equals the hex HMAC-SHA256,
keyed by the secret, of the compact JSON serialization of the payload;
in the concrete scenario, signing `{"a":1,"timestamp":1700000000000}`
with secret "s" twice gives identical digests, while flipping `a` to 2
gives a different digest. -/
theorem C1_generate_signature_deterministic :
    (∀ secret body, _generate_signature secret body = _generate_signature secret body) ∧
    (∀ secret body, _generate_signature secret body =
      hexOfBytes (hmacSha256 (strBytes secret) (strBytes (dumps body)))) ∧
    _generate_signature "s" (payloadA 1) = _generate_signature "s" (payloadA 1) ∧
    _generate_signature "s" (payloadA 1) ≠ _generate_signature "s" (payloadA 2) := by
  refine ⟨fun _ _ => rfl, fun _ _ => rfl, rfl, ?_⟩
  decide

/-- Looking up a key after the replacing branch of a dict assignment
yields the assigned value. -/
theorem lookupKey_map_assign {α : Type} (l : List (String × α)) (k : String) (v : α)
    (h : l.any (fun p => p.1 = k) = true) :
    lookupKey (l.map (fun p => if p.1 = k then (k, v) else p)) k = some v := by
  induction l with
  | nil => simp at h
  | cons p ps ih =>
    by_cases hp : p.1 = k
    · simp [lookupKey, hp]
    · have hps : ps.any (fun p => p.1 = k) = true := by
        simp only [List.any_cons, Bool.or_eq_true, decide_eq_true_eq] at h
        rcases h with h | h
        · exact absurd h hp
        · exact h
      simp [lookupKey, hp, ih hps]

/-- Looking up a key after the appending branch of a dict assignment
yields the assigned value. -/
theorem lookupKey_append_self {α : Type} (l : List (String × α)) (k : String) (v : α)
    (h : ¬ l.any (fun p => p.1 = k) = true) :
    lookupKey (l ++ [(k, v)]) k = some v := by
  induction l with
  | nil => simp [lookupKey]
  | cons p ps ih =>
    have h1 : ¬ p.1 = k := fun hk => h (by simp [hk])
    have h2 : ¬ ps.any (fun p => p.1 = k) = true := fun hk => h (by simp [hk])
    simp [lookupKey, h1, ih h2]

/-- A Python dict assignment makes the assigned value the one found
under its key. -/
theorem lookupKey_dictAssign {α : Type} (l : List (String × α)) (k : String) (v : α) :
    lookupKey (dictAssign l k v) k = some v := by
  unfold dictAssign
  by_cases h : l.any (fun p => p.1 = k) = true
  · simp only [h, if_true]
    exact lookupKey_map_assign l k v h
  · simp only [h, if_false]
    exact lookupKey_append_self l k v h

/-- C2: for every authenticated POST through `_make_request`, exactly
the built request is handed to the transport; its transmitted body is
the compact serialization of the body with the timestamp assigned; the
X-AUTH-SIGNATURE header is the hex HMAC-SHA256, under the secret, of
exactly those transmitted bytes; and the signed body contains the
timestamp — so the serialization signed and the serialization sent are
the same bytes, with the timestamp inserted before signing. -/
theorem C2_post_signature_covers_sent_bytes :
    ∀ (api_key secret_key base_url endpoint : String) (body : List (String × JVal))
      (nowMs : Int) (send : SentRequest → HttpOutcome),
    (_make_request api_key secret_key base_url "POST" endpoint body nowMs send).sent =
      [mkSignedRequest api_key secret_key base_url "POST" endpoint body nowMs] ∧
    (mkSignedRequest api_key secret_key base_url "POST" endpoint body nowMs).data =
      some (dumps (dictAssign body "timestamp" (JVal.int nowMs))) ∧
    lookupKey (mkSignedRequest api_key secret_key base_url "POST" endpoint body nowMs).headers
        "X-AUTH-SIGNATURE" =
      some (hexOfBytes (hmacSha256 (strBytes secret_key)
        (strBytes (dumps (dictAssign body "timestamp" (JVal.int nowMs)))))) ∧
    lookupKey (dictAssign body "timestamp" (JVal.int nowMs)) "timestamp" =
      some (JVal.int nowMs) := by
  intro api_key secret_key base_url endpoint body nowMs send
  refine ⟨?_, rfl, rfl, lookupKey_dictAssign body "timestamp" (JVal.int nowMs)⟩
  unfold _make_request
  rw [if_pos (Or.inr rfl)]
  cases hs : send (mkSignedRequest api_key secret_key base_url "POST" endpoint body nowMs) <;>
    simp [hs]

/-- C8: a one-shot `_make_request` call hands exactly one request to
the transport whether it succeeds or fails, and every transport failure
or non-success (4xx/5xx) status is raised synchronously to the caller
as the call's result — never retried. -/
theorem C8_single_send_and_synchronous_raise :
    ∀ (api_key secret_key base_url method endpoint : String) (body : List (String × JVal))
      (nowMs : Int) (send : SentRequest → HttpOutcome),
    method = "GET" ∨ method = "POST" →
    (_make_request api_key secret_key base_url method endpoint body nowMs send).sent =
      [mkSignedRequest api_key secret_key base_url method endpoint body nowMs] ∧
    (∀ msg,
      send (mkSignedRequest api_key secret_key base_url method endpoint body nowMs) =
        HttpOutcome.transportFailure msg →
      (_make_request api_key secret_key base_url method endpoint body nowMs send).result =
        RequestResult.error msg) ∧
    (∀ status json,
      send (mkSignedRequest api_key secret_key base_url method endpoint body nowMs) =
        HttpOutcome.response status json →
      400 ≤ status → status < 600 →
      (_make_request api_key secret_key base_url method endpoint body nowMs send).result =
        RequestResult.error ("HTTP " ++ toString status)) := by
  intro api_key secret_key base_url method endpoint body nowMs send hm
  unfold _make_request
  rw [if_pos hm]
  cases hs : send (mkSignedRequest api_key secret_key base_url method endpoint body nowMs) with
  | response status json =>
    refine ⟨by simp only [hs], ?_, ?_⟩
    · intro msg hmsg
      cases hmsg
    · intro status1 json1 hr h4 h6
      cases hr
      simp only [hs]
      rw [if_pos ⟨h4, h6⟩]
  | transportFailure msg =>
    refine ⟨by simp only [hs], ?_, ?_⟩
    · intro msg1 hmsg
      cases hmsg
      simp only [hs]
    · intro status1 json1 hr h4 h6
      cases hr

/-- Witness for C8 at concrete calls: a POST whose transport times out
is sent exactly once and raises the failure to the caller, and a POST
answered with status 404 is sent exactly once and raises the status
error to the caller. -/
theorem C8_single_send_and_synchronous_raise_witness :
    (_make_request "k" "s" "https://api.coindcx.com" "POST"
        "/exchange/v1/derivatives/futures/orders/create" [] 1700000000000
        (fun _ => HttpOutcome.transportFailure "timeout")).sent =
      [mkSignedRequest "k" "s" "https://api.coindcx.com" "POST"
        "/exchange/v1/derivatives/futures/orders/create" [] 1700000000000] ∧
    (_make_request "k" "s" "https://api.coindcx.com" "POST"
        "/exchange/v1/derivatives/futures/orders/create" [] 1700000000000
        (fun _ => HttpOutcome.transportFailure "timeout")).result =
      RequestResult.error "timeout" ∧
    (_make_request "k" "s" "https://api.coindcx.com" "POST"
        "/exchange/v1/derivatives/futures/orders/create" [] 1700000000000
        (fun _ => HttpOutcome.response 404 [])).sent =
      [mkSignedRequest "k" "s" "https://api.coindcx.com" "POST"
        "/exchange/v1/derivatives/futures/orders/create" [] 1700000000000] ∧
    (_make_request "k" "s" "https://api.coindcx.com" "POST"
        "/exchange/v1/derivatives/futures/orders/create" [] 1700000000000
        (fun _ => HttpOutcome.response 404 [])).result =
      RequestResult.error ("HTTP " ++ toString 404) :=
  have h1 := C8_single_send_and_synchronous_raise "k" "s" "https://api.coindcx.com" "POST"
    "/exchange/v1/derivatives/futures/orders/create" [] 1700000000000
    (fun _ => HttpOutcome.transportFailure "timeout") (Or.inr rfl)
  have h2 := C8_single_send_and_synchronous_raise "k" "s" "https://api.coindcx.com" "POST"
    "/exchange/v1/derivatives/futures/orders/create" [] 1700000000000
    (fun _ => HttpOutcome.response 404 []) (Or.inr rfl)
  ⟨h1.1, h1.2.1 "timeout" rfl, h2.1, h2.2.2 404 [] rfl (by decide) (by decide)⟩

/-- Backoff sleeps of a run of consecutive failures starting from a
delay of the capped-exponential form: the sleeps continue the capped
doubling sequence. -/
theorem runDelays_from_capped_pow :
    ∀ (k j : Nat),
      runDelays (min (5 * 2 ^ j) 60) (List.replicate k ConnOutcome.failure) =
        (List.range k).map (fun i => min (5 * 2 ^ (j + i)) 60) := by
  intro k
  induction k with
  | zero => intro j; simp [runDelays]
  | succ k ih =>
    intro j
    have hd : min (min (5 * 2 ^ j) 60 * 2) 60 = min (5 * 2 ^ (j + 1)) 60 := by
      have h2 : 5 * 2 ^ (j + 1) = 5 * 2 ^ j * 2 := by ring
      omega
    have hstep : runDelays (min (5 * 2 ^ j) 60)
        (List.replicate (k + 1) ConnOutcome.failure) =
        min (5 * 2 ^ j) 60 ::
          runDelays (min (min (5 * 2 ^ j) 60 * 2) 60) (List.replicate k ConnOutcome.failure) := by
      simp [runDelays, loopStep, List.replicate_succ]
    rw [hstep, hd, ih (j + 1), List.range_succ_eq_map, List.map_cons, List.map_map]
    refine congrArg₂ List.cons (by simp) ?_
    refine List.map_congr_left fun i _ => ?_
    have hji : j + 1 + i = j + Nat.succ i := by omega
    simp [Function.comp, hji]

/-- C3: in the reconnect loop of `example_websocket`, the backoff
sleeps of a run of `k` consecutive connection failures are exactly
`min(5 * 2 ^ (i), 60)` seconds for failure index `i` (that is,
`min(5 * 2 ^ (k' - 1), 60)` before attempt `k'`): 5, 10, 20, 40, 60,
60, ...; and a success resets the delay to 5 regardless of the delay
reached before, so the failures after a success restart the same
sequence at 5. -/
theorem C3_backoff_sequence_and_reset_on_success :
    ∀ (d0 k : Nat),
      runDelays d0 (ConnOutcome.success :: List.replicate k ConnOutcome.failure) =
        (List.range k).map (fun i => min (5 * 2 ^ i) 60) ∧
      runDelays 5 (List.replicate k ConnOutcome.failure) =
        (List.range k).map (fun i => min (5 * 2 ^ i) 60) := by
  intro d0 k
  have hbase : runDelays 5 (List.replicate k ConnOutcome.failure) =
      (List.range k).map (fun i => min (5 * 2 ^ i) 60) := by
    have h := runDelays_from_capped_pow k 0
    simpa using h
  refine ⟨?_, hbase⟩
  have hsucc : runDelays d0 (ConnOutcome.success :: List.replicate k ConnOutcome.failure) =
      runDelays 5 (List.replicate k ConnOutcome.failure) := by
    simp [runDelays, loopStep]
  rw [hsucc, hbase]

/-- Appending the next scheduled ping time extends the ping schedule. -/
theorem pingTimes_succ (t0 m : Nat) :
    pingTimes t0 (m + 1) = pingTimes t0 m ++ [t0 + 25 * (m + 1)] := by
  simp [pingTimes, List.range_succ]

/-- One step of the keepalive system preserves the invariant. -/
theorem pingStep_inv (t0 : Nat) (s : PingState) (l : PingLab) (h : pingInv t0 s) :
    pingInv t0 (pingStep s l) := by
  obtain ⟨hws, m, hp, hc⟩ := h
  cases l with
  | check =>
    simp only [pingStep]
    split_ifs with h1 h2
    · exact ⟨hws, m, hp, fun hsio => by simpa [h1] using hc hsio⟩
    · exact ⟨hws, m, hp, fun hsio => by simpa [h1] using hc hsio⟩
    · exact ⟨hws, m, hp, hc⟩
  | sleep =>
    simp only [pingStep]
    split_ifs with h1
    · refine ⟨hws, m, hp, fun hsio => ?_⟩
      have hcl := hc hsio
      rw [h1, if_neg (by decide)] at hcl
      show s.clock + 25 = t0 + 25 * m + (if PingPC.emitting = PingPC.emitting then 25 else 0)
      rw [if_pos rfl]
      omega
    · exact ⟨hws, m, hp, hc⟩
  | emit =>
    simp only [pingStep]
    split_ifs with h1 h2
    · have hcl := hc h2
      rw [h1, if_pos rfl] at hcl
      refine ⟨hws, m + 1, ?_, fun _ => ?_⟩
      · show s.pings ++ [s.clock] = pingTimes t0 (m + 1)
        have harith : t0 + 25 * m + 25 = t0 + 25 * (m + 1) := by ring
        rw [hp, hcl, harith, pingTimes_succ]
      · show s.clock = t0 + 25 * (m + 1) + (if PingPC.check = PingPC.emitting then 25 else 0)
        rw [if_neg (by decide)]
        omega
    · exact ⟨hws, m, hp, fun hsio => absurd hsio h2⟩
    · exact ⟨hws, m, hp, hc⟩
  | lose =>
    exact ⟨fun _ => rfl, m, hp, fun hsio => Bool.noConfusion hsio⟩
  | disconnect =>
    simp only [pingStep]
    split_ifs with h1
    · exact ⟨fun _ => rfl, m, hp, fun hsio => Bool.noConfusion hsio⟩
    · exact ⟨hws, m, hp, hc⟩

/-- Runs of the keepalive system preserve the invariant. -/
theorem pingRun_inv (t0 : Nat) (s : PingState) (ls : List PingLab) (h : pingInv t0 s) :
    pingInv t0 (pingRun s ls) := by
  induction ls generalizing s with
  | nil => exact h
  | cons l ls ih => exact ih (pingStep s l) (pingStep_inv t0 s l h)

/-- The invariant holds right after a successful connect. -/
theorem pingInv_initial (t0 : Nat) : pingInv t0 (initialPing t0) := by
  refine ⟨fun h => Bool.noConfusion h, 0, rfl, fun _ => ?_⟩
  simp [initialPing, pingTimes]

/-- Once the socket is down, no step emits a ping frame and the socket
stays down (nothing in the model reconnects it). -/
theorem pingStep_pings_of_disconnected (s : PingState) (l : PingLab)
    (h : s.sio_connected = false) :
    (pingStep s l).pings = s.pings ∧ (pingStep s l).sio_connected = false := by
  cases l with
  | check =>
    simp only [pingStep]
    split_ifs <;> exact ⟨rfl, h⟩
  | sleep =>
    simp only [pingStep]
    split_ifs <;> exact ⟨rfl, h⟩
  | emit =>
    simp only [pingStep]
    split_ifs with h1 h2
    · exact absurd h2 (by simp [h])
    · exact ⟨rfl, h⟩
    · exact ⟨rfl, h⟩
  | lose => exact ⟨rfl, rfl⟩
  | disconnect =>
    simp only [pingStep]
    split_ifs
    · exact ⟨rfl, rfl⟩
    · exact ⟨rfl, h⟩

/-- Once the socket is down, no run emits a ping frame. -/
theorem pingRun_pings_of_disconnected (s : PingState) (ls : List PingLab)
    (h : s.sio_connected = false) :
    (pingRun s ls).pings = s.pings ∧ (pingRun s ls).sio_connected = false := by
  induction ls generalizing s with
  | nil => exact ⟨rfl, h⟩
  | cons l ls ih =>
    have h1 := pingStep_pings_of_disconnected s l h
    have h2 := ih (pingStep s l) h1.2
    exact ⟨h2.1.trans h1.1, h2.2⟩

/-- C5: in every interleaving of the keepalive task with
`disconnect_websocket` calls and connection losses, the ping frames
emitted after a connect at time `t0` are exactly one every 25 seconds
(at times `t0 + 25`, `t0 + 50`, ...), hence only while connected, and
after a completed `disconnect_websocket` call — or a connection loss —
no further ping frame is ever emitted. -/
theorem C5_pings_25s_and_stop_after_disconnect :
    ∀ (t0 : Nat) (ls more : List PingLab),
      (∃ m, (pingRun (initialPing t0) ls).pings = pingTimes t0 m) ∧
      (pingRun (pingStep (pingRun (initialPing t0) ls) PingLab.disconnect) more).pings =
        (pingStep (pingRun (initialPing t0) ls) PingLab.disconnect).pings ∧
      (pingRun (pingStep (pingRun (initialPing t0) ls) PingLab.lose) more).pings =
        (pingStep (pingRun (initialPing t0) ls) PingLab.lose).pings := by
  intro t0 ls more
  obtain ⟨hws, m, hp, _⟩ := pingRun_inv t0 (initialPing t0) ls (pingInv_initial t0)
  refine ⟨⟨m, hp⟩, ?_, ?_⟩
  · have hd : (pingStep (pingRun (initialPing t0) ls) PingLab.disconnect).sio_connected =
        false := by
      cases hw : (pingRun (initialPing t0) ls).ws_connected
      · simpa [pingStep, hw] using hws hw
      · simp [pingStep, hw]
    exact (pingRun_pings_of_disconnected _ more hd).1
  · exact (pingRun_pings_of_disconnected _ more rfl).1

/-- C4 (code evaluation at the failing input): after a drop, with the
pre-drop subscription set holding both the authenticated channel and a
market-data channel, a successful `connect_websocket` re-issues a join
only for "coindcx" — the market-data channel is not re-subscribed. -/
theorem C4_reconnect_rejoins_only_auth_channel :
    "B-BTC_USDT@trades-futures" ∈ preDropClient.subscriptions ∧
    joinedChannels (connect_websocket preDropClient true).frames = ["coindcx"] ∧
    "B-BTC_USDT@trades-futures" ∉ joinedChannels (connect_websocket preDropClient true).frames := by
  refine ⟨by decide, by decide, by decide⟩

/-- C6 counterexample: registering two handlers for "df-order-update"
on a connected client and dispatching one event invokes only the second
handler — not both in registration order, as the claim states. -/
theorem C6_counterexample_two_handlers :
    clientTrigger (on_order_update (on_order_update connectedClient 1) 2) "df-order-update" =
      [2] ∧
    clientTrigger (on_order_update (on_order_update connectedClient 1) 2) "df-order-update" ≠
      [1, 2] := by
  exact ⟨by decide, by decide⟩

/-- C6 (amended): registering a second handler for the same event name
replaces the first (python-socketio keeps one handler per event name),
so dispatching one event of that name invokes only the most recently
registered handler, exactly once. -/
theorem C6_amended_last_registration_wins :
    ∀ (c : Client) (st : SioState) (cb1 cb2 : Nat),
      clientTrigger (on_order_update (on_order_update { c with sio := some st } cb1) cb2)
        "df-order-update" = [cb2] := by
  intro c st cb1 cb2
  simp only [on_order_update, registerHandler, clientTrigger, triggerEvent]
  rw [lookupKey_dictAssign]

/-- C7: for every client and channel, subscribing then unsubscribing
leaves the subscription set without the channel; subscribing twice
leaves the set equal to subscribing once (one occurrence — the set does
not grow), with the channel a member; and unsubscribing a non-member
leaves the set unchanged. -/
theorem C7_subscription_set_algebra :
    ∀ (c : Client) (ch : String),
      ch ∉ (unsubscribe (subscribeChannel c ch true).client ch true).client.subscriptions ∧
      (subscribeChannel (subscribeChannel c ch true).client ch true).client.subscriptions =
        (subscribeChannel c ch true).client.subscriptions ∧
      ch ∈ (subscribeChannel c ch true).client.subscriptions ∧
      (ch ∉ c.subscriptions →
        (unsubscribe c ch true).client.subscriptions = c.subscriptions) := by
  intro c ch
  refine ⟨?_, ?_, ?_, ?_⟩
  · simp [subscribeChannel, unsubscribe]
  · simp [subscribeChannel]
  · simp [subscribeChannel]
  · intro h
    simp [unsubscribe, Finset.erase_eq_of_not_mem h]

/-- Witness for C7 at a concrete input: unsubscribing a channel that is
not in the (empty) subscription set of a fresh client is a no-op. -/
theorem C7_subscription_set_algebra_witness :
    (unsubscribe sampleClient "B-BTC_USDT@trades-futures" true).client.subscriptions =
      sampleClient.subscriptions :=
  (C7_subscription_set_algebra sampleClient "B-BTC_USDT@trades-futures").2.2.2 (by decide)

/-- C9: when the join emit raises, every subscribe method leaves the
client — in particular its subscription set — unchanged and propagates
the error: a failed join never marks a channel as subscribed. -/
theorem C9_failed_join_leaves_set_unchanged :
    ∀ (c : Client) (channel pair interval : String) (depth : Nat),
      ((subscribeChannel c channel false).client = c ∧
        (subscribeChannel c channel false).err.isSome = true) ∧
      ((subscribe_orderbook c pair depth false).client = c ∧
        (subscribe_orderbook c pair depth false).err.isSome = true) ∧
      ((subscribe_trades c pair false).client = c ∧
        (subscribe_trades c pair false).err.isSome = true) ∧
      ((subscribe_prices c pair false).client = c ∧
        (subscribe_prices c pair false).err.isSome = true) ∧
      ((subscribe_candlesticks c pair interval false).client = c ∧
        (subscribe_candlesticks c pair interval false).err.isSome = true) ∧
      ((_subscribe_authenticated_channel c false).client = c ∧
        (_subscribe_authenticated_channel c false).err.isSome = true) := by
  intro c channel pair interval depth
  exact ⟨⟨rfl, rfl⟩, ⟨rfl, rfl⟩, ⟨rfl, rfl⟩, ⟨rfl, rfl⟩, ⟨rfl, rfl⟩, ⟨rfl, rfl⟩⟩

/-- C10: calling any handler-registration method while `self.sio` is
`None` silently does nothing — the client is returned unchanged, no
handler is registered, and no error is raised (the methods are total) —
and a later `connect_websocket` creates a socket whose handler registry
is empty, so the earlier callback is not retroactively registered. -/
theorem C10_register_before_connect_is_noop :
    ∀ (c : Client) (cb : Nat) (connectOk : Bool),
      c.sio = none →
      on_order_update c cb = c ∧ on_position_update c cb = c ∧ on_balance_update c cb = c ∧
      on_price_change c cb = c ∧ on_new_trade c cb = c ∧ on_depth_update c cb = c ∧
      on_candlestick c cb = c ∧
      handlersOf (connect_websocket (on_order_update c cb) connectOk).client = [] := by
  intro c cb connectOk h
  have hr : ∀ ev, registerHandler c ev cb = c := by
    intro ev
    unfold registerHandler
    rw [h]
  refine ⟨hr _, hr _, hr _, hr _, hr _, hr _, hr _, ?_⟩
  rw [show on_order_update c cb = c from hr _]
  unfold connect_websocket
  rw [h]
  cases hw : c.ws_connected <;> cases connectOk <;>
    simp [hw, handlersOf, _subscribe_authenticated_channel]

/-- Witness for C10 at a concrete input: a fresh client (no socket). -/
theorem C10_register_before_connect_is_noop_witness :
    on_order_update sampleClient 7 = sampleClient ∧
    on_position_update sampleClient 7 = sampleClient ∧
    on_balance_update sampleClient 7 = sampleClient ∧
    on_price_change sampleClient 7 = sampleClient ∧
    on_new_trade sampleClient 7 = sampleClient ∧
    on_depth_update sampleClient 7 = sampleClient ∧
    on_candlestick sampleClient 7 = sampleClient ∧
    handlersOf (connect_websocket (on_order_update sampleClient 7) true).client = [] :=
  C10_register_before_connect_is_noop sampleClient 7 true rfl

end CoinDCX
